import Mathlib

/-!
Verification of the recordnote recording → transcription → formatting
pipeline against its specification.  The Python sources are shallowly
embedded: strings are `String`/`List Char`, Python floats that carry
timestamps are `ℚ`, dictionaries with optional keys are structures of
`Option` fields, exceptions are `Except`, and the threaded recorder is a
step relation on an explicit state.
-/

namespace RecordNote

/-- Python's Unicode whitespace (`str.strip`, `str.split`, and `re`'s `\s`):
ASCII whitespace plus the Unicode space separators. -/
def pyIsSpace (c : Char) : Bool :=
  let n := c.toNat
  decide (n = 0x20 ∨ (0x09 ≤ n ∧ n ≤ 0x0d) ∨ (0x1c ≤ n ∧ n ≤ 0x1f) ∨ n = 0x85 ∨
    n = 0xa0 ∨ n = 0x1680 ∨ (0x2000 ≤ n ∧ n ≤ 0x200a) ∨ n = 0x2028 ∨ n = 0x2029 ∨
    n = 0x202f ∨ n = 0x205f ∨ n = 0x3000)

/-- Python `str.strip()`: drop leading and trailing whitespace. -/
def stripChars (l : List Char) : List Char :=
  ((l.dropWhile pyIsSpace).reverse.dropWhile pyIsSpace).reverse

/-- Python `str.strip()` on strings. -/
def pyStrip (s : String) : String := ⟨stripChars s.data⟩

/-- Embedding of `re.sub(r"\s+", " ", ·)` from `formatter.py` line 118: every maximal run
of whitespace becomes a single ASCII space. -/
def collapseChars : List Char → List Char
  | [] => []
  | [c] => if pyIsSpace c then [' '] else [c]
  | c :: d :: rest =>
    if pyIsSpace c ∧ pyIsSpace d then collapseChars (d :: rest)
    else (if pyIsSpace c then ' ' else c) :: collapseChars (d :: rest)

/-- The sentence-ending delimiters of `re.split(r"([。！？])", ·)`
(`formatter.py` line 122). -/
def isDelim (c : Char) : Bool := c == '。' || c == '！' || c == '？'

/-- Embedding of `re.split(r"([。！？])", s)` with the capturing group: the result
alternates (possibly empty) text chunks with single-delimiter chunks and
both starts and ends with a text chunk. -/
def splitKeep : List Char → List (List Char)
  | [] => [[]]
  | c :: rest =>
    if isDelim c then [] :: [c] :: splitKeep rest
    else
      match splitKeep rest with
      | [] => [[c]]
      | chunk :: more => (c :: chunk) :: more

/-- The loop `for i in range(0, len(sentences) - 1, 2)` of `_clean_text`
(`formatter.py` lines 125–126): pair up consecutive elements, appending each
chunk to the delimiter that follows it; a final unpaired element (the text
after the last delimiter) is never visited by the loop. -/
def pairJoin : List (List Char) → List (List Char)
  | a :: b :: rest => (a ++ b) :: pairJoin rest
  | _ => []

/-- The joining loop of `_clean_text` (`formatter.py` lines 131–137): after
the element at index `i` (not the last), emit a blank line when `i + 1` is
even and a single space otherwise.  `i` is the index of the head. -/
def joinGroupedAux : Nat → List (List Char) → List Char
  | _, [] => []
  | _, [s] => s
  | i, s :: rest => s ++ (if (i + 1) % 2 = 0 then ['\n', '\n'] else [' ']) ++ joinGroupedAux (i + 1) rest

/-- Embedding of `MinutesFormatter._clean_text` (`formatter.py` lines 105–139) on
character lists. -/
def cleanTextList (l : List Char) : List Char :=
  if l = [] then []
  else
    let cleaned := collapseChars (stripChars l)
    let sentences := splitKeep cleaned
    let formatted :=
      (pairJoin sentences).filterMap fun s =>
        let t := stripChars s
        if t = [] then none else some t
    joinGroupedAux 0 formatted

/-- Embedding of `MinutesFormatter._clean_text` (`formatter.py` lines 105–139). -/
def clean_text (s : String) : String := ⟨cleanTextList s.data⟩

/-- Python `str.split()` (no separator): maximal runs of non-whitespace
characters; empty tokens never occur.  `acc` is the (reversed) current
token. -/
def pySplitAux : List Char → List Char → List (List Char)
  | acc, [] => if acc = [] then [] else [acc.reverse]
  | acc, c :: rest =>
    if pyIsSpace c then
      (if acc = [] then [] else [acc.reverse]) ++ pySplitAux [] rest
    else pySplitAux (c :: acc) rest

/-- Python `s.split()` on strings. -/
def pySplit (s : String) : List (List Char) := pySplitAux [] s.data

/-- Python `f"{n:02d}"`: decimal rendering padded with `0` to width two
(a non-negative single digit gains a leading zero; anything else is already
at least two characters wide). -/
def pad2 (n : ℤ) : String := if 0 ≤ n ∧ n < 10 then "0" ++ toString n else toString n

/-- Embedding of `MinutesFormatter._format_timestamp` (`formatter.py` lines 92–103):
`minutes = int(seconds // 60)`, `secs = int(seconds % 60)`, rendered as
`f"{minutes:02d}:{secs:02d}"`.  Python's float `//`/`%` floor; for the
value `seconds % 60 ∈ [0, 60)` the final `int` truncation is also a
floor. -/
def format_timestamp (seconds : ℚ) : String :=
  let minutes : ℤ := ⌊seconds / 60⌋
  let secs : ℤ := ⌊seconds - 60 * ⌊seconds / 60⌋⌋
  pad2 minutes ++ ":" ++ pad2 secs

/-- One element of the `segments` list handed to the formatter: a Python
dict read only through `.get`, so every key may be absent.  The Python key
`"end"` is a Lean keyword and is embedded as `end_`. -/
structure SegmentDict where
  start : Option ℚ
  end_ : Option ℚ
  text : Option String
deriving DecidableEq, Repr

/-- The transcription-result dict handed to the formatter, read through
`.get("text", "")`, `.get("segments", [])`, `.get("language", "ja")`. -/
structure TranscriptionDict where
  text : Option String
  segments : Option (List SegmentDict)
  language : Option String
deriving DecidableEq, Repr

/-- Embedding of `MinutesFormatter._generate_header` (`formatter.py` lines 55–67), with
the `datetime.now()` rendering passed in as `now`. -/
def generate_header (title : String) (now : String) : String :=
  let title := if title = "" then "会議録" else title
  "# " ++ title ++ "\n\n**日時**: " ++ now

/-- Embedding of `MinutesFormatter._format_segments` (`formatter.py` lines 69–90). -/
def format_segments (segments : List SegmentDict) : String :=
  if segments = [] then ""
  else
    segments.foldl
      (fun formatted segment =>
        let start_time := format_timestamp (segment.start.getD 0)
        let end_time := format_timestamp (segment.end_.getD 0)
        let text := pyStrip (segment.text.getD "")
        if text ≠ "" then
          formatted ++ "**" ++ start_time ++ " - " ++ end_time ++ "**: " ++ text ++ "\n\n"
        else formatted)
      ""

/-- Embedding of `MinutesFormatter.format_minutes` (`formatter.py` lines 15–53), with the
two `datetime.now().strftime(...)` renderings passed in as `now`. -/
def format_minutes (transcription_result : TranscriptionDict) (title : String)
    (now : String) : String :=
  let full_text := transcription_result.text.getD ""
  let segments := transcription_result.segments.getD []
  let language := transcription_result.language.getD "ja"
  let header := generate_header title now
  let formatted_segments := format_segments segments
  let cleaned_text := clean_text full_text
  let minutes := header ++ "\n\n" ++ "## 音声認識結果\n\n" ++ cleaned_text ++ "\n\n"
  let minutes :=
    if formatted_segments ≠ "" then
      minutes ++ "## タイムスタンプ付き詳細\n\n" ++ formatted_segments
    else minutes
  minutes ++ "\n\n---\n\n**言語**: " ++ language ++ "\n" ++ "**作成日時**: " ++ now ++ "\n"

/-- The dict returned by `MinutesFormatter.get_summary_stats`. -/
structure SummaryStats where
  total_duration : ℚ
  segment_count : ℕ
  word_count : ℕ
  character_count : ℕ
deriving DecidableEq, Repr

/-- Embedding of `MinutesFormatter.get_summary_stats` (`formatter.py` lines 156–185).
`segments[-1]` of the non-empty case is `List.getLast?`. -/
def get_summary_stats (transcription_result : TranscriptionDict) : SummaryStats :=
  let segments := transcription_result.segments.getD []
  let full_text := transcription_result.text.getD ""
  match segments.getLast? with
  | none =>
    { total_duration := 0
      segment_count := 0
      word_count := if full_text ≠ "" then (pySplit full_text).length else 0
      character_count := if full_text ≠ "" then full_text.length else 0 }
  | some last =>
    { total_duration := last.end_.getD 0
      segment_count := segments.length
      word_count := if full_text ≠ "" then (pySplit full_text).length else 0
      character_count := if full_text ≠ "" then full_text.length else 0 }

/-! ## AudioRecorder (`recorder.py`)

The recorder's mutable state is its `recording` flag and the chunk list
`audio_data`; a chunk is the float array the sounddevice callback delivers.
The `RuntimeError`s of `recorder.py` become the error kinds named by the
spec. -/

/-- One sample chunk delivered by the capture callback. -/
abbrev Chunk := List ℚ

/-- The error kinds of §7 of the spec raised by `AudioRecorder`. -/
inductive RecError where
  | AlreadyRecording
  | NotRecording
  | NoAudioCaptured
deriving DecidableEq, Repr

/-- The mutable state of `AudioRecorder` (`recorder.py` lines 17–28); the
thread handle carries no observable state and is omitted. -/
structure AudioRecorder where
  sample_rate : ℕ
  channels : ℕ
  recording : Bool
  audio_data : List Chunk
deriving DecidableEq, Repr

/-- Embedding of `AudioRecorder.__init__` (`recorder.py` lines 17–28). -/
def AudioRecorder.init (sample_rate : ℕ := 44100) (channels : ℕ := 1) : AudioRecorder :=
  { sample_rate := sample_rate, channels := channels, recording := false, audio_data := [] }

/-- Embedding of `AudioRecorder.start_recording` (`recorder.py` lines 30–38): raise if
already recording, otherwise set the flag and reset the buffer. -/
def start_recording (r : AudioRecorder) : Except RecError AudioRecorder :=
  if r.recording then .error .AlreadyRecording
  else .ok { r with recording := true, audio_data := [] }

/-- Embedding of `AudioRecorder.stop_recording` (`recorder.py` lines 40–47): raise if not
recording, otherwise clear the flag and join the capture thread. -/
def stop_recording (r : AudioRecorder) : Except RecError AudioRecorder :=
  if ¬r.recording then .error .NotRecording
  else .ok { r with recording := false }

/-- Embedding of `AudioRecorder.get_audio_bytes` (`recorder.py` lines 67–83): raise on an
empty buffer, otherwise serialize the concatenation of all chunks.  The WAV
container is modelled by the concatenated samples themselves. -/
def get_audio_bytes (r : AudioRecorder) : Except RecError (List ℚ) :=
  if r.audio_data = [] then .error .NoAudioCaptured
  else .ok r.audio_data.flatten

/-- The `audio_callback` of `AudioRecorder._record_audio` (`recorder.py`
lines 88–95): append the incoming chunk only while `recording` holds.  The
guard and the append are one atomic event — `stop_recording` joins the
capture thread before returning, so no append can be interleaved after a
completed stop. -/
def audio_callback (r : AudioRecorder) (chunk : Chunk) : AudioRecorder :=
  if r.recording then { r with audio_data := r.audio_data ++ [chunk] } else r

/-- Embedding of `AudioRecorder.is_recording` (`recorder.py` lines 110–116). -/
def is_recording (r : AudioRecorder) : Bool := r.recording

/-- Embedding of `AudioRecorder.get_duration` (`recorder.py` lines 118–128). -/
def get_duration (r : AudioRecorder) : ℚ :=
  if r.audio_data = [] then 0
  else ((r.audio_data.map List.length).sum : ℚ) / (r.sample_rate : ℚ)

/-- The events that can touch an `AudioRecorder`: the public calls (which
leave the state unchanged when they raise), a callback chunk delivery, and
the silent capture-thread failure of `_record_audio` (`recorder.py` lines
106–108), which only clears the flag. -/
inductive REvent where
  | start
  | stop
  | chunk (c : Chunk)
  | fail
deriving DecidableEq, Repr

/-- One step of the recorder: a raising call is a no-op on the state. -/
def rstep (r : AudioRecorder) : REvent → AudioRecorder
  | .start => (start_recording r).toOption.getD r
  | .stop => (stop_recording r).toOption.getD r
  | .chunk c => audio_callback r c
  | .fail => { r with recording := false }

/-! ## SpeechTranscriber (`transcriber.py`) -/

/-- The backing `WhisperModel(model_size, device="cpu", compute_type="int8")`
instance, identified by its construction arguments. -/
structure WhisperModel where
  model_size : String
  device : String
  compute_type : String
deriving DecidableEq, Repr

/-- The state of `SpeechTranscriber` (`transcriber.py` lines 13–20). -/
structure SpeechTranscriber where
  model_size : String
  _model : Option WhisperModel
deriving DecidableEq, Repr

/-- Embedding of `SpeechTranscriber.__init__` (`transcriber.py` lines 13–20). -/
def SpeechTranscriber.init (model_size : String := "base") : SpeechTranscriber :=
  { model_size := model_size, _model := none }

/-- Embedding of `SpeechTranscriber.load_model` (`transcriber.py` lines 22–26): construct
the backing model only when none is memoized. -/
def load_model (t : SpeechTranscriber) : SpeechTranscriber :=
  if t._model = none then
    { t with _model := some ⟨t.model_size, "cpu", "int8"⟩ }
  else t

/-- The model-touching behaviour of `SpeechTranscriber.transcribe_file`
(`transcriber.py` lines 40–46): call `load_model`, then run inference on the
now-present model.  Returns the post-call state and the model used. -/
def transcribe (t : SpeechTranscriber) : SpeechTranscriber × WhisperModel :=
  let t' := load_model t
  match t'._model with
  | some m => (t', m)
  | none => (t', ⟨t'.model_size, "cpu", "int8"⟩)

/-- The model-size selector of `RecordNoteApp._render_recording_panel`
(`app.py` lines 99–100): a differing selection replaces the transcriber by a
freshly constructed one. -/
def change_model_size (t : SpeechTranscriber) (model_size : String) : SpeechTranscriber :=
  if model_size ≠ t.model_size then SpeechTranscriber.init model_size else t

/-- Embedding of `SpeechTranscriber.get_model_info` (`transcriber.py` lines 86–95). -/
def get_model_info (t : SpeechTranscriber) : String × Bool :=
  (t.model_size, t._model ≠ none)

/-! ## RecordNoteApp._process_recording (`app.py`)

The Streamlit `session_state` fields the pipeline touches, and the
processing routine.  The three collaborator calls inside the `try` block
are passed in as fallible stages (each may raise in Python; the bare
`except Exception` catches all of them); the second component of the
result is the error message displayed by `st.error`, if any. -/

/-- The session fields of `app.py` (lines 36–41). -/
structure SessionState where
  recording_state : String
  transcribed_text : String
  formatted_minutes : String
deriving DecidableEq, Repr

/-- Embedding of `RecordNoteApp._process_recording` (`app.py` lines 139–176).
`get_audio` stands for `self.recorder.get_audio_bytes()`, `tsc` for
`self.transcriber.transcribe_bytes`, and `fmt` for
`self.formatter.format_minutes` (called with `meeting_title or "会議録"`);
the access `transcription_result["text"]` raises a `KeyError` when the key
is absent.  On any caught exception the state becomes `"stopped"` and the
message is displayed; nothing else is rolled back. -/
def process_recording (get_audio : Except String (List ℚ))
    (tsc : List ℚ → Except String TranscriptionDict)
    (fmt : TranscriptionDict → String → Except String String)
    (meeting_title : String) (s : SessionState) : SessionState × Option String :=
  match get_audio with
  | .error e => ({ s with recording_state := "stopped" }, some e)
  | .ok audio_bytes =>
    match tsc audio_bytes with
    | .error e => ({ s with recording_state := "stopped" }, some e)
    | .ok transcription_result =>
      match transcription_result.text with
      | none => ({ s with recording_state := "stopped" }, some "KeyError")
      | some txt =>
        let s := { s with transcribed_text := txt }
        match fmt transcription_result (if meeting_title = "" then "会議録" else meeting_title) with
        | .error e => ({ s with recording_state := "stopped" }, some e)
        | .ok formatted_minutes =>
          ({ s with formatted_minutes := formatted_minutes, recording_state := "completed" },
            none)

/-! ## Specification-side definitions

These follow the words of the specification (not the source); theorems
compare them with the source embeddings above. -/

/-- Spec §4.3, text cleaning, as the claim words it: split on the
sentence-ending punctuation keeping each delimiter attached to the
preceding clause.  Every clause is kept, including a final clause not
followed by any delimiter.  `acc` is the clause under construction. -/
def claimSplit (acc : List Char) : List Char → List (List Char)
  | [] => [acc]
  | c :: rest =>
    if isDelim c then (acc ++ [c]) :: claimSplit [] rest
    else claimSplit (acc ++ [c]) rest

/-- The amended clause split: as `claimSplit`, except that a trailing
clause not terminated by one of 。！？ is dropped. -/
def claimSplitAmended (acc : List Char) : List Char → List (List Char)
  | [] => []
  | c :: rest =>
    if isDelim c then (acc ++ [c]) :: claimSplitAmended [] rest
    else claimSplitAmended (acc ++ [c]) rest

/-- Spec §4.3, re-joining: a blank-line paragraph break after every second
clause (except after the final clause) and a single space otherwise. -/
def specJoin : List (List Char) → List Char
  | [] => []
  | [a] => a
  | [a, b] => a ++ [' '] ++ b
  | a :: b :: rest => a ++ [' '] ++ b ++ ['\n', '\n'] ++ specJoin rest

/-- The claim's cleaning algorithm, verbatim: collapse whitespace runs,
split keeping delimiters attached, drop only clauses empty after trimming,
re-join all remaining clauses with the two-clause grouping. -/
def specCleanText (s : String) : String :=
  ⟨specJoin (((claimSplit [] (collapseChars (stripChars s.data))).map stripChars).filter
    (· ≠ []))⟩

/-- The amended cleaning algorithm: identical, except that a trailing
clause not terminated by a delimiter is dropped (`claimSplitAmended`). -/
def specCleanTextAmended (s : String) : String :=
  ⟨specJoin (((claimSplitAmended [] (collapseChars (stripChars s.data))).map stripChars).filter
    (· ≠ []))⟩

/-- Spec §8: `"{t//60:02d}"` for a natural number — the decimal rendering
left-padded with `0` to two digits. -/
def pad2spec (n : ℕ) : String := if n < 10 then "0" ++ toString n else toString n

/-- Spec §8: `formatTimestamp(t) == "{t//60:02d}:{t%60:02d}"` on natural
seconds, with natural-number division and modulo. -/
def specTimestamp (t : ℕ) : String := pad2spec (t / 60) ++ ":" ++ pad2spec (t % 60)

/-- Spec §4.3: the header block — the given title, or the fixed literal
`会議録` when the title is empty, plus the generation timestamp. -/
def specHeader (title now : String) : String :=
  "# " ++ (if title = "" then "会議録" else title) ++ "\n\n**日時**: " ++ now

/-- Spec §4.3: one detail line, `MM:SS - MM:SS: text` (bold-marked as in
the document markup). -/
def specSegmentLine (seg : SegmentDict) : String :=
  "**" ++ format_timestamp (seg.start.getD 0) ++ " - " ++ format_timestamp (seg.end_.getD 0) ++
    "**: " ++ pyStrip (seg.text.getD "") ++ "\n\n"

/-- Concatenation of a list of lines. -/
def joinLines : List String → String
  | [] => ""
  | a :: rest => a ++ joinLines rest

/-- Spec §4.3: the optional detail block — one line per segment, segments
with empty trimmed text omitted, and the whole block (heading included)
absent when no segment remains. -/
def specDetailBlock (segments : List SegmentDict) : String :=
  let kept := segments.filter fun seg => pyStrip (seg.text.getD "") ≠ ""
  if kept = [] then ""
  else "## タイムスタンプ付き詳細\n\n" ++ joinLines (kept.map specSegmentLine)

/-! ## Helper lemmas -/

/-- Prepend `acc` to the head of a clause list (empty list untouched). -/
def headAppend (acc : List Char) : List (List Char) → List (List Char)
  | [] => []
  | x :: xs => (acc ++ x) :: xs

/-- The filter used by both the source `_format_segments` and the spec's
detail block. -/
def keptSegments (segments : List SegmentDict) : List SegmentDict :=
  segments.filter fun seg => pyStrip (seg.text.getD "") ≠ ""

theorem headAppend_nil (z : List (List Char)) : headAppend [] z = z := by
  cases z <;> simp [headAppend]

theorem headAppend_cons (a x : List Char) (xs : List (List Char)) :
    headAppend a (x :: xs) = (a ++ x) :: xs := rfl

theorem splitKeep_ne_nil (l : List Char) : splitKeep l ≠ [] := by
  cases l with
  | nil => simp [splitKeep]
  | cons c rest =>
    simp only [splitKeep]
    split
    · simp
    · split <;> simp

/-- The pairing loop over a `re.split` result computes exactly the
delimiter-terminated clauses (the trailing remainder is dropped). -/
theorem claimSplitAmended_eq (l : List Char) :
    ∀ acc, claimSplitAmended acc l = headAppend acc (pairJoin (splitKeep l)) := by
  induction l with
  | nil => intro acc; simp [claimSplitAmended, splitKeep, pairJoin, headAppend]
  | cons c rest ih =>
    intro acc
    by_cases hd : isDelim c
    · simp [claimSplitAmended, splitKeep, hd, pairJoin, ih, headAppend_nil, headAppend_cons]
    · simp only [claimSplitAmended, splitKeep, hd, Bool.false_eq_true, if_false, ih]
      obtain ⟨chunk, more, hs⟩ : ∃ chunk more, splitKeep rest = chunk :: more := by
        cases h : splitKeep rest with
        | nil => exact absurd h (splitKeep_ne_nil rest)
        | cons a b => exact ⟨a, b, rfl⟩
      rw [hs]
      cases more with
      | nil => simp [pairJoin, headAppend]
      | cons d more2 => simp [pairJoin, headAppend, List.append_assoc]

theorem filterMap_strip (l : List (List Char)) :
    (l.filterMap fun s => let t := stripChars s; if t = [] then none else some t)
      = (l.map stripChars).filter (· ≠ []) := by
  induction l with
  | nil => rfl
  | cons a l ih =>
    by_cases h : stripChars a = [] <;>
      simp [List.filterMap_cons, List.filter_cons, h, ih]

theorem joinGroupedAux_add_two (l : List (List Char)) :
    ∀ i, joinGroupedAux (i + 2) l = joinGroupedAux i l := by
  induction l with
  | nil => intro i; rfl
  | cons a l ih =>
    intro i
    cases l with
    | nil => rfl
    | cons b m =>
      have h2 : (i + 2 + 1) % 2 = (i + 1) % 2 := by omega
      simp only [joinGroupedAux, h2, ih (i + 1)]

/-- The index-driven joining loop of `_clean_text` equals the spec's
pair-the-clauses description. -/
theorem joinGroupedAux_eq_specJoin (l : List (List Char)) :
    joinGroupedAux 0 l = specJoin l := by
  induction l using specJoin.induct with
  | case1 => rfl
  | case2 a => rfl
  | case3 a b => simp [joinGroupedAux, specJoin]
  | case4 a b rest h ih =>
    cases rest with
    | nil => simp at h
    | cons c m =>
      simp only [joinGroupedAux, specJoin]
      rw [show (0 + 1 + 1 : Nat) = 0 + 2 by rfl] at *
      simp only [joinGroupedAux_add_two]
      simp [ih, List.append_assoc]

/-- Lemma: `_clean_text` agrees everywhere with the amended spec algorithm. -/
theorem clean_text_eq_specAmended (s : String) : clean_text s = specCleanTextAmended s := by
  unfold clean_text specCleanTextAmended cleanTextList
  by_cases h : s.data = []
  · simp [h, stripChars, collapseChars, claimSplitAmended, specJoin]
  · simp only [h, if_false]
    rw [claimSplitAmended_eq, headAppend_nil, filterMap_strip, joinGroupedAux_eq_specJoin]

theorem floor_nat_div (t : ℕ) : ⌊(t : ℚ) / 60⌋ = ((t / 60 : ℕ) : ℤ) := by
  have h := Rat.floor_intCast_div_natCast (t : ℤ) 60
  push_cast at h ⊢
  rw [h]

theorem floor_nat_mod (t : ℕ) :
    ⌊(t : ℚ) - 60 * ((⌊(t : ℚ) / 60⌋ : ℤ) : ℚ)⌋ = ((t % 60 : ℕ) : ℤ) := by
  rw [floor_nat_div]
  rw [Int.cast_natCast]
  have h2 : ((t % 60 : ℕ) : ℚ) + 60 * ((t / 60 : ℕ) : ℚ) = (t : ℚ) := by
    exact_mod_cast congrArg (Nat.cast (R := ℚ)) (Nat.mod_add_div t 60)
  have key : (t : ℚ) - 60 * ((t / 60 : ℕ) : ℚ) = ((t % 60 : ℕ) : ℚ) := by linarith
  rw [key, Int.floor_natCast]

theorem pad2_natCast (m : ℕ) : pad2 (m : ℤ) = pad2spec m := by
  unfold pad2 pad2spec
  have hts : toString ((m : ℕ) : ℤ) = toString m := rfl
  by_cases h : m < 10
  · rw [if_pos ⟨by positivity, by exact_mod_cast h⟩, if_pos h, hts]
  · rw [if_neg (fun hc => h (by exact_mod_cast hc.2)), if_neg h, hts]

theorem str_ext {a b : String} (h : a.data = b.data) : a = b := congrArg String.mk h

theorem str_append_eq_empty_iff (a b : String) : a ++ b = "" ↔ a = "" ∧ b = "" := by
  constructor
  · intro h
    have hd := congrArg String.data h
    rw [String.data_append] at hd
    have := List.append_eq_nil.mp hd
    exact ⟨str_ext this.1, str_ext this.2⟩
  · rintro ⟨rfl, rfl⟩
    rfl

theorem specSegmentLine_ne_empty (seg : SegmentDict) : specSegmentLine seg ≠ "" := by
  unfold specSegmentLine
  intro h
  have h1 := ((str_append_eq_empty_iff _ _).mp h).1
  have h2 := ((str_append_eq_empty_iff _ _).mp h1).1
  have h3 := ((str_append_eq_empty_iff _ _).mp h2).1
  have h4 := ((str_append_eq_empty_iff _ _).mp h3).1
  have h5 := ((str_append_eq_empty_iff _ _).mp h4).1
  have h6 := ((str_append_eq_empty_iff _ _).mp h5).1
  exact absurd h6 (by decide)

theorem format_segments_foldl (segs : List SegmentDict) : ∀ acc : String,
    segs.foldl
      (fun formatted segment =>
        let start_time := format_timestamp (segment.start.getD 0)
        let end_time := format_timestamp (segment.end_.getD 0)
        let text := pyStrip (segment.text.getD "")
        if text ≠ "" then
          formatted ++ "**" ++ start_time ++ " - " ++ end_time ++ "**: " ++ text ++ "\n\n"
        else formatted)
      acc
      = acc ++ joinLines ((keptSegments segs).map specSegmentLine) := by
  induction segs with
  | nil => intro acc; simp [keptSegments, joinLines, String.append_empty]
  | cons seg rest ih =>
    intro acc
    by_cases h : pyStrip (seg.text.getD "") = ""
    · simp only [List.foldl_cons, h, ne_eq, not_true_eq_false, if_false, ih]
      simp [keptSegments, List.filter_cons, h]
    · simp only [List.foldl_cons, h, ne_eq, not_false_eq_true, if_true, ih]
      simp [keptSegments, List.filter_cons, h, joinLines, specSegmentLine,
        String.append_assoc]

theorem format_segments_eq (segs : List SegmentDict) :
    format_segments segs = joinLines ((keptSegments segs).map specSegmentLine) := by
  unfold format_segments
  by_cases h : segs = []
  · simp [h, keptSegments, joinLines]
  · rw [if_neg h, format_segments_foldl, String.empty_append]

theorem format_segments_empty_iff (segs : List SegmentDict) :
    format_segments segs = "" ↔ keptSegments segs = [] := by
  rw [format_segments_eq]
  cases h : keptSegments segs with
  | nil => simp [joinLines]
  | cons a l =>
    simp only [List.map_cons, joinLines, str_append_eq_empty_iff]
    exact ⟨fun hc => absurd hc.1 (specSegmentLine_ne_empty a), fun hc => by simp at hc⟩

/-- Lemma: `format_minutes` decomposes into the spec's header, body, optional
detail block, and footer. -/
theorem format_minutes_decomposition (tr : TranscriptionDict) (title now : String) :
    format_minutes tr title now =
      specHeader title now ++ "\n\n" ++ "## 音声認識結果\n\n" ++ clean_text (tr.text.getD "") ++
        "\n\n" ++ specDetailBlock (tr.segments.getD []) ++ "\n\n---\n\n**言語**: " ++
        tr.language.getD "ja" ++ "\n" ++ "**作成日時**: " ++ now ++ "\n" := by
  unfold format_minutes generate_header specHeader specDetailBlock
  by_cases hk : keptSegments (tr.segments.getD []) = []
  · have hfs : format_segments (tr.segments.getD []) = "" :=
      (format_segments_empty_iff _).mpr hk
    simp only [hfs, ne_eq, not_true_eq_false, if_false, keptSegments] at *
    simp only [hk, if_pos]
    simp [String.append_assoc, String.append_empty, String.empty_append]
  · have hfs : format_segments (tr.segments.getD []) ≠ "" := fun hc =>
      hk ((format_segments_empty_iff _).mp hc)
    simp only [hfs, ne_eq, not_false_eq_true, if_true, keptSegments] at *
    simp only [hk, if_neg, if_false]
    rw [format_segments_eq]
    simp only [String.append_assoc, keptSegments]

/-- Without a `start` event, a stopped recorder's buffer and flag are
stable under any event sequence. -/
theorem no_start_stable (es : List REvent) : ∀ r : AudioRecorder, r.recording = false →
    (∀ e ∈ es, e ≠ REvent.start) →
    (es.foldl rstep r).audio_data = r.audio_data ∧ (es.foldl rstep r).recording = false := by
  induction es with
  | nil => intro r h _; exact ⟨rfl, h⟩
  | cons e es ih =>
    intro r hrec hnostart
    have hes : ∀ x ∈ es, x ≠ REvent.start := fun x hx => hnostart x (List.mem_cons_of_mem e hx)
    cases e with
    | start => exact absurd rfl (hnostart .start (List.mem_cons_self _ _))
    | stop =>
      have hstep : rstep r .stop = r := by
        simp [rstep, stop_recording, hrec, Except.toOption]
      rw [List.foldl_cons, hstep]
      exact ih r hrec hes
    | chunk c =>
      have hstep : rstep r (.chunk c) = r := by
        simp [rstep, audio_callback, hrec]
      rw [List.foldl_cons, hstep]
      exact ih r hrec hes
    | fail =>
      rw [List.foldl_cons]
      have := ih { r with recording := false } rfl hes
      exact ⟨this.1, this.2⟩

/-! ## Claims -/

/-- C1 (counterexample): `_clean_text` loses the final clause of
`"これはテストです"` — a non-empty clause not terminated by 。！？ — returning
`""`, while the claim's own algorithm (which keeps and re-joins every
clause that is non-empty after trimming) returns the clause itself. -/
theorem clean_text_claim_counterexample :
    clean_text "これはテストです" = "" ∧
      specCleanText "これはテストです" = "これはテストです" ∧
      ("これはテストです" : String) ≠ "" :=
  ⟨rfl, rfl, by decide⟩

/-- C1 (amended): `_clean_text` collapses whitespace runs, splits on 。！？
keeping each delimiter attached to the preceding clause, drops clauses that
are empty after trimming **and also drops a trailing clause not terminated
by a delimiter**, then re-joins the remaining clauses with a blank line
after every second clause (except the final one) and a single space
otherwise; `_clean_text("") = ""`, `_clean_text("   ") = ""`, and the
whitespace-collapsing example holds. -/
theorem clean_text_amended_spec :
    (∀ s : String, clean_text s = specCleanTextAmended s) ∧
      clean_text "" = "" ∧ clean_text "   " = "" ∧
      clean_text "これは　　テスト　です。" = "これは テスト です。" :=
  ⟨clean_text_eq_specAmended, rfl, rfl, rfl⟩

/-- C9: for every non-negative (natural) seconds value `t`,
`_format_timestamp(t)` renders `"{t//60:02d}:{t%60:02d}"`, with no rollover
into hours; `0 → "00:00"`, `65 → "01:05"`, `3661 → "61:01"`. -/
theorem format_timestamp_matches_spec :
    (∀ t : ℕ, format_timestamp (t : ℚ) = specTimestamp t) ∧
      format_timestamp 0 = "00:00" ∧ format_timestamp 65 = "01:05" ∧
      format_timestamp 3661 = "61:01" := by
  refine ⟨fun t => ?_, by norm_num [format_timestamp, pad2]; rfl,
    by norm_num [format_timestamp, pad2]; rfl, by norm_num [format_timestamp, pad2]; rfl⟩
  unfold format_timestamp specTimestamp
  rw [floor_nat_mod, floor_nat_div]
  simp only [pad2_natCast]

/-- C2: chunks are appended to the buffer only while capture is active;
`start_recording` resets the buffer to empty; after a successful
`stop_recording`, the buffer is stable under every event sequence that
contains no further `start_recording`. -/
theorem recorder_buffer_only_while_active :
    ∀ r : AudioRecorder,
      (∀ c, r.recording = false → audio_callback r c = r) ∧
      (∀ c, r.recording = true →
        audio_callback r c = { r with audio_data := r.audio_data ++ [c] }) ∧
      (∀ r', start_recording r = .ok r' → r'.audio_data = [] ∧ r'.recording = true) ∧
      (∀ r', stop_recording r = .ok r' → r'.recording = false ∧
        ∀ es : List REvent, (∀ e ∈ es, e ≠ REvent.start) →
          (es.foldl rstep r').audio_data = r'.audio_data) := by
  intro r
  refine ⟨fun c h => by simp [audio_callback, h], fun c h => by simp [audio_callback, h],
    fun r' h => ?_, fun r' h => ?_⟩
  · unfold start_recording at h
    by_cases hr : r.recording
    · simp [hr] at h
    · simp only [hr, Bool.false_eq_true, if_false, Except.ok.injEq] at h
      rw [← h]
      exact ⟨rfl, rfl⟩
  · unfold stop_recording at h
    by_cases hr : r.recording
    · simp only [hr, not_true, if_false, Except.ok.injEq] at h
      rw [← h]
      exact ⟨rfl, fun es hes => (no_start_stable es _ rfl hes).1⟩
    · simp [hr] at h

/-- Witness for C2 at concrete recorder states. -/
theorem recorder_buffer_only_while_active_witness :
    audio_callback ⟨44100, 1, false, [[1]]⟩ [2] = ⟨44100, 1, false, [[1]]⟩ ∧
      audio_callback ⟨44100, 1, true, []⟩ [2] = ⟨44100, 1, true, [[2]]⟩ ∧
      (start_recording ⟨44100, 1, false, [[1]]⟩ = .ok ⟨44100, 1, true, []⟩ →
        (⟨44100, 1, true, []⟩ : AudioRecorder).audio_data = []) ∧
      ([REvent.chunk [3], REvent.fail].foldl rstep ⟨44100, 1, false, [[1]]⟩).audio_data
        = [[1]] :=
  ⟨(recorder_buffer_only_while_active _).1 [2] rfl,
    (recorder_buffer_only_while_active _).2.1 [2] rfl,
    fun h => ((recorder_buffer_only_while_active ⟨44100, 1, false, [[1]]⟩).2.2.1 _ h).1,
    ((recorder_buffer_only_while_active ⟨44100, 1, true, [[1]]⟩).2.2.2
      ⟨44100, 1, false, [[1]]⟩ rfl).2 [REvent.chunk [3], REvent.fail] (by decide)⟩

/-- C5: `start_recording` raises `AlreadyRecording` iff capture is active,
`stop_recording` raises `NotRecording` iff it is not, `get_audio_bytes`
raises `NoAudioCaptured` iff the buffer is empty, and a raising call leaves
the state unchanged. -/
theorem recorder_error_conditions :
    ∀ r : AudioRecorder,
      ((start_recording r = .error .AlreadyRecording) ↔ r.recording = true) ∧
      ((stop_recording r = .error .NotRecording) ↔ r.recording = false) ∧
      ((get_audio_bytes r = .error .NoAudioCaptured) ↔ r.audio_data = []) ∧
      (r.recording = true → rstep r .start = r) ∧
      (r.recording = false → rstep r .stop = r) := by
  intro r
  refine ⟨?_, ?_, ?_, fun h => ?_, fun h => ?_⟩
  · cases hr : r.recording <;> simp [start_recording, hr]
  · cases hr : r.recording <;> simp [stop_recording, hr]
  · by_cases hd : r.audio_data = [] <;> simp [get_audio_bytes, hd]
  · simp [rstep, start_recording, h, Except.toOption]
  · simp [rstep, stop_recording, h, Except.toOption]

/-- Witness for C5: raising calls at concrete states leave them unchanged. -/
theorem recorder_error_conditions_witness :
    rstep ⟨44100, 1, true, []⟩ REvent.start = ⟨44100, 1, true, []⟩ ∧
      rstep ⟨44100, 1, false, [[1]]⟩ REvent.stop = ⟨44100, 1, false, [[1]]⟩ :=
  ⟨(recorder_error_conditions _).2.2.2.1 rfl,
    (recorder_error_conditions _).2.2.2.2 rfl⟩

/-- C7: model loading is lazy (none after construction), triggered by the
first transcription, memoized across subsequent transcriptions (same
instance, no reload), and invalidated by a model-size change so that the
next transcription loads the new size. -/
theorem transcriber_lazy_memoized :
    ∀ (size newSize : String) (t : SpeechTranscriber),
      (SpeechTranscriber.init size)._model = none ∧
      (transcribe (SpeechTranscriber.init size)).1._model = some ⟨size, "cpu", "int8"⟩ ∧
      (t._model ≠ none → load_model t = t) ∧
      (transcribe (transcribe t).1).1 = (transcribe t).1 ∧
      (transcribe (transcribe t).1).2 = (transcribe t).2 ∧
      (newSize ≠ t.model_size →
        change_model_size t newSize = SpeechTranscriber.init newSize ∧
        (transcribe (change_model_size t newSize)).1._model
          = some ⟨newSize, "cpu", "int8"⟩) := by
  intro size newSize t
  refine ⟨rfl, rfl, fun h => ?_, ?_, ?_, fun h => ?_⟩
  · cases hm : t._model with
    | none => exact absurd hm h
    | some m => simp [load_model, hm]
  · cases hm : t._model with
    | none => simp [transcribe, load_model, hm]
    | some m => simp [transcribe, load_model, hm]
  · cases hm : t._model with
    | none => simp [transcribe, load_model, hm]
    | some m => simp [transcribe, load_model, hm]
  · constructor
    · simp [change_model_size, h]
    · simp [change_model_size, h, transcribe, load_model, SpeechTranscriber.init]

/-- Witness for C7 at concrete transcriber states. -/
theorem transcriber_lazy_memoized_witness :
    load_model ⟨"small", some ⟨"small", "cpu", "int8"⟩⟩ =
        ⟨"small", some ⟨"small", "cpu", "int8"⟩⟩ ∧
      change_model_size ⟨"base", some ⟨"base", "cpu", "int8"⟩⟩ "large"
        = SpeechTranscriber.init "large" ∧
      (transcribe (change_model_size ⟨"base", some ⟨"base", "cpu", "int8"⟩⟩ "large")).1._model
        = some ⟨"large", "cpu", "int8"⟩ :=
  ⟨(transcriber_lazy_memoized "base" "large" _).2.2.1 (by decide),
    ((transcriber_lazy_memoized "base" "large" ⟨"base", some ⟨"base", "cpu", "int8"⟩⟩).2.2.2.2.2
      (by decide)).1,
    ((transcriber_lazy_memoized "base" "large" ⟨"base", some ⟨"base", "cpu", "int8"⟩⟩).2.2.2.2.2
      (by decide)).2⟩

/-- C3 (counterexample): when transcription succeeds and formatting then
fails, `_process_recording` returns to `"stopped"` but keeps the stored
transcript with no matching formatted document — the session is left
half-updated, contradicting "discards all partial results". -/
theorem process_recording_counterexample :
    process_recording (.ok []) (fun _ => .ok ⟨some "議事テキスト", some [], some "ja"⟩)
        (fun _ _ => .error "formatting failed") "" ⟨"processing", "", ""⟩
      = (⟨"stopped", "議事テキスト", ""⟩, some "formatting failed") ∧
      ("議事テキスト" : String) ≠ "" :=
  ⟨rfl, by decide⟩

/-- C3 (amended): every stage failure returns the session to `"stopped"`
with the error message and stores no formatted document from that run, but
a transcript stored by a successful transcription is retained even when the
formatting stage then fails; on full success the session stores transcript
and document and becomes `"completed"`. -/
theorem process_recording_amended :
    ∀ (ga : Except String (List ℚ)) (tsc : List ℚ → Except String TranscriptionDict)
      (fmt : TranscriptionDict → String → Except String String) (title : String)
      (s : SessionState),
      ((∃ e, (process_recording ga tsc fmt title s).2 = some e) →
        (process_recording ga tsc fmt title s).1.recording_state = "stopped" ∧
        (process_recording ga tsc fmt title s).1.formatted_minutes = s.formatted_minutes) ∧
      (∀ audio tr txt e, ga = .ok audio → tsc audio = .ok tr → tr.text = some txt →
        fmt tr (if title = "" then "会議録" else title) = .error e →
        process_recording ga tsc fmt title s
          = ({ s with transcribed_text := txt, recording_state := "stopped" }, some e)) ∧
      (∀ audio tr txt fm, ga = .ok audio → tsc audio = .ok tr → tr.text = some txt →
        fmt tr (if title = "" then "会議録" else title) = .ok fm →
        process_recording ga tsc fmt title s
          = ({ s with transcribed_text := txt, formatted_minutes := fm, recording_state := "completed" }, none)) := by
  intro ga tsc fmt title s
  refine ⟨?_, ?_, ?_⟩
  · rintro ⟨e, he⟩
    cases hga : ga with
    | error e0 =>
      simp only [process_recording, hga]
      exact ⟨trivial, trivial⟩
    | ok audio =>
      cases htsc : tsc audio with
      | error e1 =>
        simp only [process_recording, hga, htsc]
        exact ⟨trivial, trivial⟩
      | ok tr =>
        cases htxt : tr.text with
        | none =>
          simp only [process_recording, hga, htsc, htxt]
          exact ⟨trivial, trivial⟩
        | some txt =>
          cases hfmt : fmt tr (if title = "" then "会議録" else title) with
          | error e2 =>
            simp only [process_recording, hga, htsc, htxt, hfmt]
            exact ⟨trivial, trivial⟩
          | ok fm =>
            simp only [process_recording, hga, htsc, htxt, hfmt] at he
            exact absurd he (by simp)
  · intro audio tr txt e hga htsc htxt hfmt
    unfold process_recording
    rw [hga]
    simp only [htsc, htxt, hfmt]
  · intro audio tr txt fm hga htsc htxt hfmt
    unfold process_recording
    rw [hga]
    simp only [htsc, htxt, hfmt]

/-- Witness for C3 (amended) at concrete stage outcomes. -/
theorem process_recording_amended_witness :
    process_recording (.ok [1]) (fun _ => .ok ⟨some "text", none, none⟩)
        (fun _ _ => .ok "doc") "T" ⟨"processing", "", ""⟩
      = (⟨"completed", "text", "doc"⟩, none) ∧
      (process_recording (.error "no audio") (fun _ => .ok ⟨some "text", none, none⟩)
        (fun _ _ => .ok "doc") "T" ⟨"processing", "old", "olddoc"⟩).1.formatted_minutes
        = "olddoc" :=
  ⟨by
    have h := (process_recording_amended (.ok [1]) (fun _ => .ok ⟨some "text", none, none⟩)
      (fun _ _ => .ok "doc") "T" ⟨"processing", "", ""⟩).2.2 [1] ⟨some "text", none, none⟩
      "text" "doc" rfl rfl rfl rfl
    exact h,
   ((process_recording_amended (.error "no audio") (fun _ => .ok ⟨some "text", none, none⟩)
      (fun _ _ => .ok "doc") "T" ⟨"processing", "old", "olddoc"⟩).1
      ⟨"no audio", rfl⟩).2⟩

/-- C4 (counterexample): on the claim's own example the character count is
9, the length of `"これはテストです。"`, not 8. -/
theorem get_summary_stats_counterexample :
    (get_summary_stats ⟨some "これはテストです。",
        some [⟨some 0, some 2, some "これはテストです。"⟩], none⟩).character_count = 9 ∧
      ("これはテストです。" : String).length = 9 ∧ (9 : ℕ) ≠ 8 :=
  ⟨rfl, rfl, by decide⟩

/-- C4 (amended): `get_summary_stats` is a pure projection — empty segments
give duration 0 and segment count 0; otherwise duration is the `end` of the
last segment; word count is the number of whitespace-delimited tokens of
`text` and character count its length; the concrete example yields
character count 9 (not 8). -/
theorem get_summary_stats_amended :
    (∀ tr : TranscriptionDict, tr.segments.getD [] = [] →
      get_summary_stats tr
        = ⟨0, 0, (pySplit (tr.text.getD "")).length, (tr.text.getD "").length⟩) ∧
    (∀ (tr : TranscriptionDict) (last : SegmentDict),
      (tr.segments.getD []).getLast? = some last →
      get_summary_stats tr
        = ⟨last.end_.getD 0, (tr.segments.getD []).length,
            (pySplit (tr.text.getD "")).length, (tr.text.getD "").length⟩) ∧
    get_summary_stats ⟨some "これはテストです。",
        some [⟨some 0, some 2, some "これはテストです。"⟩], none⟩ = ⟨2, 1, 1, 9⟩ ∧
    get_summary_stats ⟨some "", some [], none⟩ = ⟨0, 0, 0, 0⟩ := by
  refine ⟨fun tr h => ?_, fun tr last h => ?_, rfl, rfl⟩
  · simp only [get_summary_stats, h, List.getLast?_nil]
    by_cases ht : tr.text.getD "" = "" <;> simp [ht, pySplit, pySplitAux]
  · simp only [get_summary_stats, h]
    by_cases ht : tr.text.getD "" = "" <;> simp [ht, pySplit, pySplitAux]

/-- Witness for C4 (amended) at concrete inputs. -/
theorem get_summary_stats_amended_witness :
    get_summary_stats ⟨none, none, none⟩ = ⟨0, 0, 0, 0⟩ ∧
      get_summary_stats ⟨some "a b", some [⟨some 1, some 3, some "a b"⟩], none⟩
        = ⟨3, 1, 2, 3⟩ :=
  ⟨(get_summary_stats_amended.1 ⟨none, none, none⟩ rfl).trans rfl,
    (get_summary_stats_amended.2.1 ⟨some "a b", some [⟨some 1, some 3, some "a b"⟩], none⟩
      ⟨some 1, some 3, some "a b"⟩ rfl).trans rfl⟩

/-- C6: `format_minutes` is exactly the spec's header (default title
`会議録` when empty, a non-empty title verbatim), body with the cleaned full
text, optional detail block of `MM:SS - MM:SS: text` lines (segments with
empty trimmed text omitted; block absent when none remains), and footer
with the detected language. -/
theorem format_minutes_document_structure :
    (∀ (tr : TranscriptionDict) (title now : String),
      format_minutes tr title now =
        specHeader title now ++ "\n\n" ++ "## 音声認識結果\n\n" ++
          clean_text (tr.text.getD "") ++ "\n\n" ++ specDetailBlock (tr.segments.getD []) ++
          "\n\n---\n\n**言語**: " ++ tr.language.getD "ja" ++ "\n" ++ "**作成日時**: " ++
          now ++ "\n") ∧
    (∀ now, specHeader "" now = "# " ++ "会議録" ++ "\n\n**日時**: " ++ now) ∧
    (∀ now, specHeader "Weekly Sync" now = "# " ++ "Weekly Sync" ++ "\n\n**日時**: " ++ now) :=
  ⟨format_minutes_decomposition, fun _ => rfl, fun _ => rfl⟩

/-- C8 (counterexample): two calls of `format_minutes` with identical
arguments but made at different clock times return different strings — the
generation timestamp is embedded, so the result is not a pure function of
the transcription result and title alone. -/
theorem format_minutes_clock_counterexample :
    format_minutes ⟨none, none, none⟩ "" "2024年01月01日 00:00:00" ≠
      format_minutes ⟨none, none, none⟩ "" "2024年01月02日 00:00:00" := by decide

/-- C8 (amended): `format_minutes` is deterministic in its arguments plus
the clock reading, which appears in the output exactly as the two embedded
timestamps; `get_summary_stats` is a pure projection (in particular
independent of the `language` field it never reads). -/
theorem format_minutes_pure_given_clock :
    (∀ (tr : TranscriptionDict) (title : String), ∃ p q : String, ∀ now : String,
      format_minutes tr title now = p ++ now ++ q ++ now ++ "\n") ∧
    (∀ (tr : TranscriptionDict) (lang : Option String),
      get_summary_stats { tr with language := lang } = get_summary_stats tr) := by
  constructor
  · intro tr title
    refine ⟨"# " ++ (if title = "" then "会議録" else title) ++ "\n\n**日時**: ",
      "\n\n" ++ "## 音声認識結果\n\n" ++ clean_text (tr.text.getD "") ++ "\n\n" ++
        specDetailBlock (tr.segments.getD []) ++ "\n\n---\n\n**言語**: " ++
        tr.language.getD "ja" ++ "\n" ++ "**作成日時**: ", fun now => ?_⟩
    rw [format_minutes_decomposition]
    simp [specHeader, String.append_assoc]
  · intro tr lang
    cases tr
    rfl

/-- C10: at the formatter's public interface a missing `text` key behaves
as `""`, missing `segments` as `[]`, missing `language` as `"ja"`, and a
segment's missing `start`/`end`/`text` keys as `0`/`0`/`""`; both
operations are total on such partial inputs. -/
theorem formatter_defaults_totality :
    ∀ (t : Option String) (sg : Option (List SegmentDict)) (lang : Option String)
      (title now : String) (st en : Option ℚ) (tx : Option String)
      (rest : List SegmentDict),
      format_minutes ⟨t, sg, lang⟩ title now
        = format_minutes ⟨some (t.getD ""), some (sg.getD []), some (lang.getD "ja")⟩
            title now ∧
      get_summary_stats ⟨t, sg, lang⟩
        = get_summary_stats ⟨some (t.getD ""), some (sg.getD []), some (lang.getD "ja")⟩ ∧
      format_segments (⟨st, en, tx⟩ :: rest)
        = format_segments (⟨some (st.getD 0), some (en.getD 0), some (tx.getD "")⟩ :: rest) := by
  intro t sg lang title now st en tx rest
  refine ⟨?_, ?_, ?_⟩
  · simp [format_minutes]
  · simp [get_summary_stats]
  · simp [format_segments]

end RecordNote
